import Mathlib

/-!
A shallow embedding of the adaptive segmentation and resilient transcription
pipeline of `src/transcriber.py` (`Transcriber._split_audio_into_chunks`,
`Transcriber._split_audio_by_duration`, `Transcriber.transcribe`).

External effects are modelled explicitly:
* the result of `os.path.getsize` and of decoding the audio (pydub
  `AudioSegment.from_file`, which yields the duration in milliseconds) are
  carried by the `Asset` record (`none` meaning the call raised);
* the transcription service, the per-chunk `export` calls and the
  `os.remove` calls are an oracle `Env`; submissions are numbered in the
  order they are issued within one `transcribe` call;
* observable effects (submissions to the service, temporary-file creation
  and removal attempts) are collected in an event trace returned next to
  the result, so that claims about "exactly one submission" or "every temp
  file is deleted" are statements about the trace.

Python floats in the stride computation are rendered in exact rational
arithmetic: `int(math.floor(max_bytes / (file_size / duration_ms)))`
becomes `max_bytes * duration_ms / file_size` in natural-number division
(the two agree except for double-rounding of IEEE doubles, which is below
the granularity of this model).
-/

/-- Embedding of `Transcriber.max_bytes`: maximum allowed file size per request, 20 MiB. -/
def sizeCeiling : Nat := 20 * 1024 * 1024

/-- The input audio file as `transcribe` observes it: the result of statting
it (`none` when `os.path.getsize` raises `OSError`), the filename extension
(after `splitext`, without the leading dot, not yet lowercased), and the
result of decoding it with pydub (`none` when `AudioSegment.from_file`
raises; otherwise the duration in milliseconds, `len(audio)`). -/
structure Asset where
  sizeBytes : Option Nat
  ext : String
  durationMs : Option Nat
deriving Repr, DecidableEq

/-- Outcome of one `client.audio.transcriptions.create(...)` call:
`ok t` is a response object whose `text` attribute is `t` (`none` when the
response lacks a `text` field, in which case `getattr(resp, "text", "")`
yields `""`); `err m` is a raised exception whose string form is `m`. -/
inductive SubmitResult where
  | ok (text : Option String)
  | err (msg : String)
deriving Repr, DecidableEq

/-- Oracle for the external world during one `transcribe` call:
`submitResults k` is the outcome of the `k`-th submission issued (0-based),
`exportOk i` tells whether pydub export of chunk `i` succeeds, and
`deleteOk p` tells whether `os.remove p` succeeds. -/
structure Env where
  submitResults : Nat → SubmitResult
  exportOk : Nat → Bool
  deleteOk : String → Bool

/-- A planned segment: `buffer name` is an in-memory `BytesIO` chunk tagged
with a synthetic name (byte-budget strategy); `file path` is a temporary
file on disk (duration-budget strategy). -/
inductive Segment where
  | buffer (name : String)
  | file (path : String)
deriving Repr, DecidableEq

/-- Observable events of one `transcribe` call, in order. -/
inductive Event where
  | submitWhole
  | submitSeg (idx : Nat)
  | createTemp (path : String)
  | removeOk (path : String)
  | removeFail (path : String)
deriving Repr, DecidableEq

/-- Errors `transcribe` can raise to its caller: `assetAccess` is the
`FileNotFoundError` (`AssetAccessError` in the spec) from a failed stat;
`service` is an uncaught exception from a whole-file submission. -/
inductive TError where
  | assetAccess (msg : String)
  | service (msg : String)
deriving Repr, DecidableEq

/-- The chunk stride chosen by `_split_audio_into_chunks`:
`bytes_per_ms = file_size / duration_ms`;
`max_ms_per_chunk = int(math.floor(max_bytes / bytes_per_ms))`, floored to
1000 ms (rendered exactly as `sizeCeiling * durationMs / fileSize` in
natural-number division). -/
def maxMsPerChunk (fileSize durationMs : Nat) : Nat :=
  let m := sizeCeiling * durationMs / fileSize
  if m < 1000 then 1000 else m

/-- Lowercasing of the file extension (`ext.lower()` in the source),
character by character; extensions are ASCII. -/
def strToLower (s : String) : String := String.mk (s.data.map Char.toLower)

/-- Path of the `i`-th `tempfile.NamedTemporaryFile(delete=False,
suffix='.mp4')`; the concrete names are opaque identifiers, distinct per
index. -/
def tmpPath (i : Nat) : String := "tmp_" ++ toString i ++ ".mp4"

/-- Embedding of `Transcriber._split_audio_into_chunks`: raises when the file does not
need splitting, when decoding fails, or when the duration is zero;
otherwise walks the audio in strides of `maxMsPerChunk` and exports each
window to an in-memory buffer named `part_<index>.<ext>` (extension
defaulting to `wav` when empty). A failed export raises; no events are
produced because no files are touched. -/
def splitAudioIntoChunks (fileSize : Nat) (durationMs : Option Nat)
    (ext : String) (exportOk : Nat → Bool) : Except String (List Segment) :=
  if fileSize ≤ sizeCeiling then Except.error "File does not need splitting"
  else
    match durationMs with
    | none => Except.error "could not decode audio"
    | some d =>
      if d = 0 then Except.error "Audio duration is zero"
      else
        let step := maxMsPerChunk fileSize d
        let e := if ext = "" then "wav" else ext
        let n := (d + step - 1) / step
        if (List.range n).all (fun i => exportOk i) then
          Except.ok ((List.range n).map
            (fun i => Segment.buffer ("part_" ++ toString i ++ "." ++ e)))
        else Except.error "export failed"

/-- The loop body of `_split_audio_by_duration`: for each chunk index, a
temporary file is created (event `createTemp`), then the chunk is exported
into it; a failed export raises, leaving behind the files created so far
(the trace records them, with no matching removal). -/
def exportLoop (idxs : List Nat) (exportOk : Nat → Bool) :
    Except String (List String) × List Event :=
  match idxs with
  | [] => (Except.ok [], [])
  | i :: rest =>
    if exportOk i then
      match exportLoop rest exportOk with
      | (Except.ok paths, tr) =>
        (Except.ok (tmpPath i :: paths), Event.createTemp (tmpPath i) :: tr)
      | (Except.error m, tr) =>
        (Except.error m, Event.createTemp (tmpPath i) :: tr)
    else (Except.error "export failed", [Event.createTemp (tmpPath i)])

/-- Embedding of `Transcriber._split_audio_by_duration`: fixed-stride split of an m4a
asset into temporary `.mp4` files, returning the paths in time order.
Raises when decoding fails or the duration is zero. -/
def splitAudioByDuration (durationMs : Option Nat) (chunkMs : Nat)
    (exportOk : Nat → Bool) : Except String (List String) × List Event :=
  match durationMs with
  | none => (Except.error "could not decode audio", [])
  | some d =>
    if d = 0 then (Except.error "Audio duration is zero", [])
    else exportLoop (List.range ((d + chunkMs - 1) / chunkMs)) exportOk

/-- The planning step of `transcribe` on the oversized path: m4a assets are
split by a fixed 5-minute (300000 ms) stride into temporary files; every
other container goes through the byte-budget splitter. -/
def planSegments (a : Asset) (s : Nat) (env : Env) :
    Except String (List Segment) × List Event :=
  if strToLower a.ext = "m4a" then
    let r := splitAudioByDuration a.durationMs (5 * 60 * 1000) env.exportOk
    (r.1.map (fun ps => ps.map Segment.file), r.2)
  else
    (splitAudioIntoChunks s a.durationMs (strToLower a.ext) env.exportOk, [])

/-- The per-segment entry recorded by the chunk loop of `transcribe`:
the response text (`""` when the `text` field is missing) on success, and
the synthetic placeholder `[transcription error on part <idx>: <msg>]` when
the submission raises. `idx` is both the segment ordinal and the submission
number, since the segmented path issues exactly one submission per segment
and no other submissions. -/
def segmentEntry (env : Env) (idx : Nat) : String :=
  match env.submitResults idx with
  | SubmitResult.ok t => t.getD ""
  | SubmitResult.err m =>
    "[transcription error on part " ++ toString idx ++ ": " ++ m ++ "]"

/-- The chunk loop of `transcribe`: submit each segment in order (segment
`idx` is submission `idx`), record its entry, and — in the `finally`
block — attempt to delete the backing temporary file of a file segment,
logging (never raising) a failed removal. Returns the entries in order and
the events produced. -/
def transcribeSegments (segs : List Segment) (i : Nat) (env : Env) :
    List String × List Event :=
  match segs with
  | [] => ([], [])
  | seg :: rest =>
    let delEvs : List Event :=
      match seg with
      | Segment.buffer _ => []
      | Segment.file p =>
        if env.deleteOk p then [Event.removeOk p] else [Event.removeFail p]
    let r := transcribeSegments rest (i + 1) env
    (segmentEntry env i :: r.1, Event.submitSeg i :: (delEvs ++ r.2))

/-- Embedding of `Transcriber.transcribe`: stat the file (raising `assetAccess` when the
stat fails, before anything else); submit small files whole and return the
response text verbatim; plan oversized files and either transcribe the
segments in order (joining the entries with a blank line) or, when planning
raises, fall back to a single whole-file submission. -/
def transcribe (a : Asset) (env : Env) : Except TError String × List Event :=
  match a.sizeBytes with
  | none => (Except.error (TError.assetAccess "Could not access file"), [])
  | some s =>
    if s ≤ sizeCeiling then
      match env.submitResults 0 with
      | SubmitResult.ok t => (Except.ok (t.getD ""), [Event.submitWhole])
      | SubmitResult.err m =>
        (Except.error (TError.service m), [Event.submitWhole])
    else
      match (planSegments a s env).1 with
      | Except.error _ =>
        match env.submitResults 0 with
        | SubmitResult.ok t =>
          (Except.ok (t.getD ""), (planSegments a s env).2 ++ [Event.submitWhole])
        | SubmitResult.err m =>
          (Except.error (TError.service m),
            (planSegments a s env).2 ++ [Event.submitWhole])
      | Except.ok segs =>
        (Except.ok (String.intercalate "\n\n" (transcribeSegments segs 0 env).1),
          (planSegments a s env).2 ++ (transcribeSegments segs 0 env).2)

/-- Whether an event is a submission to the transcription service. -/
def isSubmitEv : Event → Bool
  | Event.submitWhole => true
  | Event.submitSeg _ => true
  | _ => false

/-- The paths of the temporary files a trace records as created. -/
def createTempPaths : List Event → List String
  | [] => []
  | Event.createTemp p :: tr => p :: createTempPaths tr
  | Event.submitWhole :: tr => createTempPaths tr
  | Event.submitSeg _ :: tr => createTempPaths tr
  | Event.removeOk _ :: tr => createTempPaths tr
  | Event.removeFail _ :: tr => createTempPaths tr

/-- Whether a `transcribe` outcome is a raised `AssetAccessError`. -/
def isAssetAccessError : Except TError String → Bool
  | Except.error (TError.assetAccess _) => true
  | _ => false

/-- The entries produced by the chunk loop are `segmentEntry` at consecutive
submission indices, one per segment, in order. -/
theorem transcribeSegments_parts (segs : List Segment) (i : Nat) (env : Env) :
    (transcribeSegments segs i env).1 =
      (List.range' i segs.length).map (segmentEntry env) := by
  induction segs generalizing i with
  | nil => simp [transcribeSegments]
  | cons seg rest ih => simp [transcribeSegments, ih, List.range'_succ]

/-- The submissions of the chunk loop are exactly one per segment, in
segment order. -/
theorem transcribeSegments_filter (segs : List Segment) (i : Nat) (env : Env) :
    ((transcribeSegments segs i env).2).filter isSubmitEv =
      (List.range' i segs.length).map Event.submitSeg := by
  induction segs generalizing i with
  | nil => simp [transcribeSegments]
  | cons seg rest ih =>
    cases seg with
    | buffer nm => simp [transcribeSegments, ih, List.range'_succ, isSubmitEv]
    | file p =>
      by_cases hq : env.deleteOk p = true <;>
        simp [transcribeSegments, ih, List.range'_succ, isSubmitEv, hq]

/-- The function `createTempPaths` distributes over trace concatenation. -/
theorem createTempPaths_append (l1 l2 : List Event) :
    createTempPaths (l1 ++ l2) = createTempPaths l1 ++ createTempPaths l2 := by
  induction l1 with
  | nil => rfl
  | cons e tr ih => cases e <;> simp [createTempPaths, ih]

/-- The chunk loop never creates temporary files. -/
theorem transcribeSegments_createTempPaths (segs : List Segment) (i : Nat)
    (env : Env) : createTempPaths (transcribeSegments segs i env).2 = [] := by
  induction segs generalizing i with
  | nil => simp [transcribeSegments, createTempPaths]
  | cons seg rest ih =>
    cases seg with
    | buffer nm =>
      simp [transcribeSegments, createTempPaths, createTempPaths_append, ih]
    | file p =>
      by_cases hq : env.deleteOk p = true <;>
        simp [transcribeSegments, createTempPaths, createTempPaths_append,
          hq, ih]

/-- For a file segment of the plan, the chunk loop records a removal
attempt on that segment's path: a successful removal when `os.remove`
succeeds, a logged failure otherwise. -/
theorem transcribeSegments_remove (segs : List Segment) (i : Nat) (env : Env)
    (p : String) (h : Segment.file p ∈ segs) :
    (env.deleteOk p = true →
      Event.removeOk p ∈ (transcribeSegments segs i env).2) ∧
    (env.deleteOk p = false →
      Event.removeFail p ∈ (transcribeSegments segs i env).2) := by
  induction segs generalizing i with
  | nil => simp at h
  | cons seg rest ih =>
    rcases List.mem_cons.mp h with heq | hmem
    · refine ⟨fun hd => ?_, fun hd => ?_⟩ <;>
        (rw [← heq]; simp [transcribeSegments, hd])
    · refine ⟨fun hd => ?_, fun hd => ?_⟩
      · have hrec := (ih (i + 1) hmem).1 hd
        cases seg with
        | buffer nm => simp [transcribeSegments, hrec]
        | file q =>
          by_cases hq : env.deleteOk q = true <;>
            simp [transcribeSegments, hq, hrec]
      · have hrec := (ih (i + 1) hmem).2 hd
        cases seg with
        | buffer nm => simp [transcribeSegments, hrec]
        | file q =>
          by_cases hq : env.deleteOk q = true <;>
            simp [transcribeSegments, hq, hrec]

/-- A path is among the created temp paths of a trace exactly when the
trace holds its creation event. -/
theorem mem_createTempPaths (tr : List Event) (p : String) :
    p ∈ createTempPaths tr ↔ Event.createTemp p ∈ tr := by
  induction tr with
  | nil => simp [createTempPaths]
  | cons e rest ih => cases e <;> simp [createTempPaths, ih]

/-- Creation events built from a list of paths register exactly those
paths. -/
theorem createTempPaths_map_comp (l : List Nat) (f : Nat → String) :
    createTempPaths (l.map (fun i => Event.createTemp (f i))) = l.map f := by
  induction l with
  | nil => rfl
  | cons i rest ih => simp [createTempPaths, ih]

/-- Creation events are not submissions. -/
theorem filter_submit_map_create (l : List Nat) (f : Nat → String) :
    ((l.map (fun i => Event.createTemp (f i))).filter isSubmitEv) = [] := by
  induction l with
  | nil => rfl
  | cons i rest ih => simp [isSubmitEv, ih]

/-- When every export succeeds, the duration-split loop returns the
temporary paths in index order and its trace is exactly their creation
events. -/
theorem exportLoop_all (idxs : List Nat) (ok : Nat → Bool)
    (h : ∀ i ∈ idxs, ok i = true) :
    exportLoop idxs ok = (Except.ok (idxs.map tmpPath),
      idxs.map (fun i => Event.createTemp (tmpPath i))) := by
  induction idxs with
  | nil => rfl
  | cons i rest ih =>
    have hi : ok i = true := h i (by simp)
    have hr := ih (fun j hj => h j (by simp [hj]))
    simp [exportLoop, hi, hr]

/-- When the duration-split loop succeeds, the returned paths are the
temporary paths in index order and the trace is exactly their creation
events. -/
theorem exportLoop_ok_eq (idxs : List Nat) (ok : Nat → Bool)
    (paths : List String) (h : (exportLoop idxs ok).1 = Except.ok paths) :
    paths = idxs.map tmpPath ∧
      (exportLoop idxs ok).2 = paths.map Event.createTemp := by
  induction idxs generalizing paths with
  | nil =>
    simp [exportLoop] at h
    subst h
    simp [exportLoop]
  | cons i rest ih =>
    by_cases hi : ok i = true
    · cases hr : exportLoop rest ok with
      | mk r tr =>
        cases r with
        | ok ps =>
          have h1 : (exportLoop rest ok).1 = Except.ok ps := by rw [hr]
          obtain ⟨hps, htr⟩ := ih ps h1
          rw [hr] at htr
          simp only at htr
          simp [exportLoop, hi, hr] at h
          subst h
          refine ⟨by simp [hps], ?_⟩
          simp [exportLoop, hi, hr, htr]
        | error m => simp [exportLoop, hi, hr] at h
    · simp [exportLoop, hi] at h

/-- The loop of a failed export run never records a submission. -/
theorem exportLoop_filter (idxs : List Nat) (ok : Nat → Bool) :
    ((exportLoop idxs ok).2).filter isSubmitEv = [] := by
  induction idxs with
  | nil => rfl
  | cons i rest ih =>
    by_cases hi : ok i = true
    · cases hr : exportLoop rest ok with
      | mk r tr =>
        have ih' : tr.filter isSubmitEv = [] := by rw [hr] at ih; exact ih
        cases r <;> simp [exportLoop, hi, hr, isSubmitEv, ih']
    · simp [exportLoop, hi, isSubmitEv]

/-- The duration-budget split records no submissions. -/
theorem splitAudioByDuration_filter (durationMs : Option Nat)
    (chunkMs : Nat) (ok : Nat → Bool) :
    ((splitAudioByDuration durationMs chunkMs ok).2).filter isSubmitEv
      = [] := by
  cases durationMs with
  | none => rfl
  | some d =>
    by_cases h0 : d = 0
    · subst h0
      rfl
    · show ((if d = 0 then (Except.error "Audio duration is zero",
          ([] : List Event))
        else exportLoop (List.range ((d + chunkMs - 1) / chunkMs))
          ok).2).filter isSubmitEv = []
      rw [if_neg h0]
      exact exportLoop_filter _ ok

/-- Planning records no submissions (it only touches the filesystem). -/
theorem planSegments_no_submit (a : Asset) (s : Nat) (env : Env) :
    ((planSegments a s env).2).filter isSubmitEv = [] := by
  by_cases hx : strToLower a.ext = "m4a"
  · have h2 : (planSegments a s env).2 =
        (splitAudioByDuration a.durationMs (5 * 60 * 1000)
          env.exportOk).2 := by
      unfold planSegments
      rw [if_pos hx]
    rw [h2]
    exact splitAudioByDuration_filter a.durationMs (5 * 60 * 1000)
      env.exportOk
  · have h2 : (planSegments a s env).2 = [] := by
      unfold planSegments
      rw [if_neg hx]
    rw [h2]
    rfl

/-- Unfolding of `transcribe` on an oversized asset whose planning
succeeded: the result is the blank-line join of the per-segment entries in
order, and the trace is the planning trace followed by the chunk-loop
trace. -/
theorem transcribe_planned_ok (a : Asset) (env : Env) (s : Nat)
    (segs : List Segment) (hs : a.sizeBytes = some s)
    (hgt : sizeCeiling < s)
    (hp : (planSegments a s env).1 = Except.ok segs) :
    transcribe a env =
      (Except.ok (String.intercalate "\n\n"
        ((List.range segs.length).map (segmentEntry env))),
        (planSegments a s env).2 ++ (transcribeSegments segs 0 env).2) := by
  have hnle : ¬ s ≤ sizeCeiling := Nat.not_le.mpr hgt
  simp [transcribe, hs, hnle, hp, transcribeSegments_parts,
    List.range_eq_range']

/-- A well-behaved external world: every submission returns the text
`hello`, every export succeeds, every removal succeeds. -/
def envAll : Env :=
  ⟨fun _ => SubmitResult.ok (some "hello"), fun _ => true, fun _ => true⟩

/-- External world whose second submission raises `timeout` and every
other submission returns the text `hi`. -/
def envSegTwo : Env :=
  ⟨fun i => if i = 1 then SubmitResult.err "timeout"
            else SubmitResult.ok (some "hi"),
    fun _ => true, fun _ => true⟩

/-- External world whose responses carry no `text` field. -/
def envNoText : Env :=
  ⟨fun _ => SubmitResult.ok none, fun _ => true, fun _ => true⟩

/-- External world where the export of every chunk after the first one
raises (e.g. the encoder fails mid-split). -/
def envExportFail : Env :=
  ⟨fun _ => SubmitResult.ok (some "hello"), fun i => decide (i = 0),
    fun _ => true⟩

/-- A 5 MiB wave file, 100 ms long. -/
def aSmallWav : Asset := ⟨some 5242880, "wav", some 100⟩

/-- A 40 MiB wave file, 2000 ms long (splits into 2 chunks of 1000 ms). -/
def aBigWav : Asset := ⟨some 41943040, "wav", some 2000⟩

/-- A 40 MiB m4a file, 12 minutes long (3 segments of 5 minutes). -/
def aBigM4a : Asset := ⟨some 41943040, "m4a", some 720000⟩

/-- A 40 MiB m4a file whose decoded duration is zero (corrupted header). -/
def aM4aZero : Asset := ⟨some 41943040, "m4a", some 0⟩

/-- A path whose stat raises `OSError`. -/
def aMissing : Asset := ⟨none, "wav", none⟩

/-- C1: for every asset whose file size is at most the 20 MiB ceiling,
`transcribe` issues exactly one submission (the whole file; no planning,
no splitting, no temp files) and returns that submission's text
unmodified. -/
theorem c1_size_gate (a : Asset) (env : Env) (s : Nat) (t : String)
    (hs : a.sizeBytes = some s) (hle : s ≤ sizeCeiling)
    (ht : env.submitResults 0 = SubmitResult.ok (some t)) :
    (transcribe a env).2 = [Event.submitWhole] ∧
      (transcribe a env).1 = Except.ok t := by
  simp [transcribe, hs, hle, ht]

/-- C1 witness: a 5 MiB wave file is submitted once, whole, and the
service text comes back verbatim. -/
theorem c1_size_gate_witness :
    (transcribe aSmallWav envAll).2 = [Event.submitWhole] ∧
      (transcribe aSmallWav envAll).1 = Except.ok "hello" :=
  c1_size_gate aSmallWav envAll 5242880 "hello" rfl (by decide) rfl

/-- C2: for every oversized asset whose planning succeeds with `n`
segments, the result is the join of exactly the `n` per-segment entries,
in segment order, separated by `"\n\n"`, with no entry omitted (the entry
function covers both success and failure of the segment's submission). -/
theorem c2_segmentation_coverage (a : Asset) (env : Env) (s : Nat)
    (segs : List Segment) (hs : a.sizeBytes = some s)
    (hgt : sizeCeiling < s)
    (hp : (planSegments a s env).1 = Except.ok segs) :
    (transcribe a env).1 = Except.ok (String.intercalate "\n\n"
      ((List.range segs.length).map (segmentEntry env))) := by
  rw [transcribe_planned_ok a env s segs hs hgt hp]

/-- C2 witness: the 40 MiB wave file plans into 2 chunks and the result is
the 2 entries joined by a blank line. -/
theorem c2_segmentation_coverage_witness :
    (transcribe aBigWav envAll).1 = Except.ok (String.intercalate "\n\n"
      ((List.range 2).map (segmentEntry envAll))) :=
  c2_segmentation_coverage aBigWav envAll 41943040
    [Segment.buffer "part_0.wav", Segment.buffer "part_1.wav"]
    rfl (by decide) rfl

/-- C3: in a segmented run where segment `i`'s submission raises `m` and
every other segment `j` returns text `f j`, the transcript keeps every
other segment's text in order and position `i` holds the placeholder
embedding the ordinal `i` and the error description `m`; the call still
returns a result (no abort). -/
theorem c3_failure_isolation (a : Asset) (env : Env) (s : Nat)
    (segs : List Segment) (i : Nat) (m : String) (f : Nat → String)
    (hs : a.sizeBytes = some s) (hgt : sizeCeiling < s)
    (hp : (planSegments a s env).1 = Except.ok segs)
    (hi : i < segs.length)
    (herr : env.submitResults i = SubmitResult.err m)
    (hok : ∀ j, j < segs.length → j ≠ i →
      env.submitResults j = SubmitResult.ok (some (f j))) :
    (transcribe a env).1 = Except.ok (String.intercalate "\n\n"
      ((List.range segs.length).map (fun j =>
        if j = i then
          "[transcription error on part " ++ toString i ++ ": " ++ m ++ "]"
        else f j))) := by
  have hmap : (List.range segs.length).map (segmentEntry env) =
      (List.range segs.length).map (fun j =>
        if j = i then
          "[transcription error on part " ++ toString i ++ ": " ++ m ++ "]"
        else f j) := by
    apply List.map_congr_left
    intro j hj
    rcases eq_or_ne j i with he | hne
    · subst he
      simp [segmentEntry, herr]
    · simp [segmentEntry, hok j (List.mem_range.mp hj) hne, hne]
  rw [transcribe_planned_ok a env s segs hs hgt hp, ← hmap]

/-- C3 witness: 2 chunks, the second submission times out; the result is
the first chunk's text followed by the placeholder for part 1. -/
theorem c3_failure_isolation_witness :
    (transcribe aBigWav envSegTwo).1 = Except.ok (String.intercalate "\n\n"
      ((List.range 2).map (fun j =>
        if j = 1 then
          "[transcription error on part " ++ toString 1 ++ ": " ++
            "timeout" ++ "]"
        else "hi"))) :=
  c3_failure_isolation aBigWav envSegTwo 41943040
    [Segment.buffer "part_0.wav", Segment.buffer "part_1.wav"]
    1 "timeout" (fun _ => "hi") rfl (by decide) rfl (by decide) rfl
    (by decide)

/-- C4: when planning of an oversized asset raises, `transcribe` does not
raise the planning error; it issues exactly one (whole-file) submission
and returns its text (or propagates that submission's service error). -/
theorem c4_fallback_on_planning_failure (a : Asset) (env : Env) (s : Nat)
    (m : String) (hs : a.sizeBytes = some s) (hgt : sizeCeiling < s)
    (hp : (planSegments a s env).1 = Except.error m) :
    ((transcribe a env).2).filter isSubmitEv = [Event.submitWhole] ∧
    (transcribe a env).1 = (match env.submitResults 0 with
      | SubmitResult.ok t => Except.ok (t.getD "")
      | SubmitResult.err e => Except.error (TError.service e)) := by
  have hnle : ¬ s ≤ sizeCeiling := Nat.not_le.mpr hgt
  have hplan := planSegments_no_submit a s env
  cases h0 : env.submitResults 0 with
  | ok t =>
    constructor
    · simp [transcribe, hs, hnle, hp, h0, List.filter_append, hplan,
        isSubmitEv]
    · simp [transcribe, hs, hnle, hp, h0]
  | err e =>
    constructor
    · simp [transcribe, hs, hnle, hp, h0, List.filter_append, hplan,
        isSubmitEv]
    · simp [transcribe, hs, hnle, hp, h0]

/-- C4 witness: the oversized m4a with zero duration fails planning; one
whole-file submission happens and its text is returned. -/
theorem c4_fallback_on_planning_failure_witness :
    ((transcribe aM4aZero envAll).2).filter isSubmitEv =
        [Event.submitWhole] ∧
      (transcribe aM4aZero envAll).1 = Except.ok "hello" :=
  c4_fallback_on_planning_failure aM4aZero envAll 41943040
    "Audio duration is zero" rfl (by decide) rfl

/-- C7: when the stat of the path fails, `transcribe` raises the asset
access error with an empty trace: no submission, no planning, no temp
file precedes it. -/
theorem c7_asset_access (a : Asset) (env : Env)
    (h : a.sizeBytes = none) :
    isAssetAccessError (transcribe a env).1 = true ∧
      (transcribe a env).2 = [] := by
  simp [transcribe, h, isAssetAccessError]

/-- C7 witness: a nonexistent path raises immediately with no events. -/
theorem c7_asset_access_witness :
    isAssetAccessError (transcribe aMissing envAll).1 = true ∧
      (transcribe aMissing envAll).2 = [] :=
  c7_asset_access aMissing envAll rfl

/-- C9: when the service response lacks a `text` field, no error is
raised: the whole-file path and the fallback path return `""`, and a
segment whose response lacks the field contributes `""` as its entry. -/
theorem c9_missing_text_field (a : Asset) (env : Env) (s idx : Nat)
    (m : String) (hs : a.sizeBytes = some s)
    (h0 : env.submitResults 0 = SubmitResult.ok none)
    (hidx : env.submitResults idx = SubmitResult.ok none) :
    (s ≤ sizeCeiling → (transcribe a env).1 = Except.ok "") ∧
    (sizeCeiling < s → (planSegments a s env).1 = Except.error m →
      (transcribe a env).1 = Except.ok "") ∧
    segmentEntry env idx = "" := by
  refine ⟨fun hle => ?_, fun hgt hp => ?_, ?_⟩
  · simp [transcribe, hs, hle, h0]
  · have hnle : ¬ s ≤ sizeCeiling := Nat.not_le.mpr hgt
    simp [transcribe, hs, hnle, hp, h0]
  · simp [segmentEntry, hidx]

/-- C9 witness: with text-less responses, the fallback path of the
zero-duration m4a returns `""` and segment entries are `""`. -/
theorem c9_missing_text_field_witness :
    (41943040 ≤ sizeCeiling →
      (transcribe aM4aZero envNoText).1 = Except.ok "") ∧
    (sizeCeiling < 41943040 →
      (planSegments aM4aZero 41943040 envNoText).1 =
        Except.error "Audio duration is zero" →
      (transcribe aM4aZero envNoText).1 = Except.ok "") ∧
    segmentEntry envNoText 0 = "" :=
  c9_missing_text_field aM4aZero envNoText 41943040 0
    "Audio duration is zero" rfl rfl rfl

/-- C10: the byte-budget splitter checks its own precondition — a file
whose size is at most the ceiling makes it raise
`File does not need splitting` instead of returning a plan. -/
theorem c10_splitter_precondition (fileSize : Nat) (durationMs : Option Nat)
    (ext : String) (ok : Nat → Bool) (h : fileSize ≤ sizeCeiling) :
    splitAudioIntoChunks fileSize durationMs ext ok =
      Except.error "File does not need splitting" := by
  simp [splitAudioIntoChunks, h]

/-- C10 witness: a 5 MiB file is refused by the splitter. -/
theorem c10_splitter_precondition_witness :
    splitAudioIntoChunks 5242880 (some 100) "wav" (fun _ => true) =
      Except.error "File does not need splitting" :=
  c10_splitter_precondition 5242880 (some 100) "wav" (fun _ => true)
    (by decide)

/-- C6: for a file of `S` bytes and `D` ms (both positive), the byte-budget
stride equals `floor(sizeCeiling / (S / D))` (real-valued division, stated
over `ℚ`), except that any value below 1000 is replaced by exactly 1000 ms;
and the stride is never below 1000 ms. -/
theorem c6_minimum_segment_floor (S D : Nat) (hS : 0 < S) (hD : 0 < D) :
    maxMsPerChunk S D =
      (if Nat.floor ((sizeCeiling : ℚ) / ((S : ℚ) / (D : ℚ))) < 1000
       then 1000
       else Nat.floor ((sizeCeiling : ℚ) / ((S : ℚ) / (D : ℚ)))) ∧
    1000 ≤ maxMsPerChunk S D := by
  have key : (sizeCeiling : ℚ) / ((S : ℚ) / (D : ℚ)) =
      ((sizeCeiling * D : ℕ) : ℚ) / ((S : ℕ) : ℚ) := by
    push_cast
    rw [div_div_eq_mul_div]
  have hfloor : Nat.floor ((sizeCeiling : ℚ) / ((S : ℚ) / (D : ℚ))) =
      sizeCeiling * D / S := by
    rw [key, Nat.floor_div_nat, Nat.floor_natCast]
  constructor
  · rw [hfloor]
    rfl
  · rw [maxMsPerChunk]
    split
    · exact Nat.le_refl 1000
    · exact Nat.not_lt.mp (by assumption)

/-- C6 witness: a 40 MiB file of one second would need a 500 ms stride;
the floor forces 1000 ms. -/
theorem c6_minimum_segment_floor_witness :
    1000 ≤ maxMsPerChunk 41943040 1000 :=
  (c6_minimum_segment_floor 41943040 1000 (by decide) (by decide)).2

/-- C8: an oversized m4a asset of duration `d` ms is planned by the fixed
5-minute (300000 ms) stride regardless of estimated size: the plan is the
list of `⌈d / 300000⌉` temporary file paths in time order, the trace
records exactly those file creations, and the number of submissions equals
the number of segments. -/
theorem c8_duration_split (a : Asset) (env : Env) (s d : Nat)
    (hs : a.sizeBytes = some s) (hgt : sizeCeiling < s)
    (hx : strToLower a.ext = "m4a") (hd : a.durationMs = some d)
    (hd0 : 0 < d) (hexp : ∀ i, env.exportOk i = true) :
    (planSegments a s env).1 = Except.ok
      ((List.range ((d + 300000 - 1) / 300000)).map
        (fun i => Segment.file (tmpPath i))) ∧
    createTempPaths (transcribe a env).2 =
      (List.range ((d + 300000 - 1) / 300000)).map tmpPath ∧
    ((transcribe a env).2).filter isSubmitEv =
      (List.range ((d + 300000 - 1) / 300000)).map Event.submitSeg := by
  have hd0' : d ≠ 0 := Nat.pos_iff_ne_zero.mp hd0
  have hall : ∀ i ∈ List.range ((d + 300000 - 1) / 300000),
      env.exportOk i = true := fun i _ => hexp i
  have hloop := exportLoop_all (List.range ((d + 300000 - 1) / 300000))
    env.exportOk hall
  have hsplit : splitAudioByDuration a.durationMs (5 * 60 * 1000)
      env.exportOk =
      (Except.ok ((List.range ((d + 300000 - 1) / 300000)).map tmpPath),
        (List.range ((d + 300000 - 1) / 300000)).map
          (fun i => Event.createTemp (tmpPath i))) := by
    rw [hd]
    show (if d = 0 then (Except.error "Audio duration is zero",
        ([] : List Event))
      else exportLoop (List.range ((d + 5 * 60 * 1000 - 1) / (5 * 60 * 1000)))
        env.exportOk) = _
    rw [if_neg hd0']
    exact hloop
  have hplanEq : planSegments a s env =
      (Except.ok ((List.range ((d + 300000 - 1) / 300000)).map
          (fun i => Segment.file (tmpPath i))),
        (List.range ((d + 300000 - 1) / 300000)).map
          (fun i => Event.createTemp (tmpPath i))) := by
    unfold planSegments
    rw [if_pos hx]
    show (((splitAudioByDuration a.durationMs (5 * 60 * 1000)
          env.exportOk).1).map (fun ps => ps.map Segment.file),
      (splitAudioByDuration a.durationMs (5 * 60 * 1000)
        env.exportOk).2) = _
    rw [hsplit]
    show (Except.ok ((((List.range ((d + 300000 - 1) / 300000)).map
        tmpPath)).map Segment.file), _) = _
    rw [List.map_map]
    rfl
  have hp1 : (planSegments a s env).1 = Except.ok
      ((List.range ((d + 300000 - 1) / 300000)).map
        (fun i => Segment.file (tmpPath i))) := by rw [hplanEq]
  have htr := transcribe_planned_ok a env s
    ((List.range ((d + 300000 - 1) / 300000)).map
      (fun i => Segment.file (tmpPath i))) hs hgt hp1
  have htr2 : (transcribe a env).2 =
      ((List.range ((d + 300000 - 1) / 300000)).map
        (fun i => Event.createTemp (tmpPath i))) ++
      (transcribeSegments
        ((List.range ((d + 300000 - 1) / 300000)).map
          (fun i => Segment.file (tmpPath i))) 0 env).2 := by
    rw [htr]
    show (planSegments a s env).2 ++ _ = _
    rw [hplanEq]
  refine ⟨hp1, ?_, ?_⟩
  · rw [htr2, createTempPaths_append, createTempPaths_map_comp,
      transcribeSegments_createTempPaths]
    exact List.append_nil _
  · rw [htr2, List.filter_append, filter_submit_map_create,
      transcribeSegments_filter]
    rw [List.nil_append, List.length_map, List.length_range]
    rw [← List.range_eq_range']

/-- C8 witness: the 12-minute m4a plans into 3 temp files, all created,
and 3 submissions happen. -/
theorem c8_duration_split_witness :
    (planSegments aBigM4a 41943040 envAll).1 = Except.ok
      ((List.range 3).map (fun i => Segment.file (tmpPath i))) ∧
    createTempPaths (transcribe aBigM4a envAll).2 =
      (List.range 3).map tmpPath ∧
    ((transcribe aBigM4a envAll).2).filter isSubmitEv =
      (List.range 3).map Event.submitSeg :=
  c8_duration_split aBigM4a envAll 41943040 720000 rfl (by decide) rfl rfl
    (by decide) (fun _ => rfl)

/-- When the duration-budget split succeeds, its trace is exactly the
creation events of the returned paths. -/
theorem splitAudioByDuration_ok (durationMs : Option Nat) (chunkMs : Nat)
    (ok : Nat → Bool) (paths : List String)
    (h : (splitAudioByDuration durationMs chunkMs ok).1 = Except.ok paths) :
    (splitAudioByDuration durationMs chunkMs ok).2 =
      paths.map Event.createTemp := by
  cases hd : durationMs with
  | none => rw [hd] at h; simp [splitAudioByDuration] at h
  | some d =>
    rw [hd] at h
    by_cases h0 : d = 0
    · simp [splitAudioByDuration, h0] at h
    · simp only [splitAudioByDuration, h0, if_false] at h ⊢
      exact (exportLoop_ok_eq _ ok paths h).2

/-- C5 counterexample: on the oversized m4a whose export of chunk 1
raises, planning creates the temporary files for chunks 0 and 1, the call
falls back to a whole-file submission and returns its text — and neither
temporary file is ever removed (no removal attempt appears in the trace),
so not every temporary file created for a duration-split segment is
deleted by the time `transcribe` returns. -/
theorem c5_cleanup_counterexample :
    (transcribe aBigM4a envExportFail).1 = Except.ok "hello" ∧
    Event.createTemp "tmp_0.mp4" ∈ (transcribe aBigM4a envExportFail).2 ∧
    Event.removeOk "tmp_0.mp4" ∉ (transcribe aBigM4a envExportFail).2 ∧
    Event.removeFail "tmp_0.mp4" ∉ (transcribe aBigM4a envExportFail).2 := by
  refine ⟨rfl, by decide, by decide, by decide⟩

/-- C5 (amended): when planning succeeds, every temporary file created
during the call gets a removal attempt by the time `transcribe` returns,
regardless of whether the segment's transcription succeeded — a removal
that `os.remove` completes when deletion works, a logged failure event
otherwise — and the failure of a deletion never replaces or masks the
transcription result (the result is the full join, independent of the
deletion oracle). -/
theorem c5_cleanup_amended (a : Asset) (env : Env) (s : Nat)
    (segs : List Segment) (p : String) (hs : a.sizeBytes = some s)
    (hgt : sizeCeiling < s)
    (hp : (planSegments a s env).1 = Except.ok segs)
    (hcr : Event.createTemp p ∈ (transcribe a env).2) :
    (env.deleteOk p = true →
      Event.removeOk p ∈ (transcribe a env).2) ∧
    (env.deleteOk p = false →
      Event.removeFail p ∈ (transcribe a env).2) ∧
    (transcribe a env).1 = Except.ok (String.intercalate "\n\n"
      ((List.range segs.length).map (segmentEntry env))) := by
  have htr : (transcribe a env).2 =
      (planSegments a s env).2 ++ (transcribeSegments segs 0 env).2 := by
    rw [transcribe_planned_ok a env s segs hs hgt hp]
  have hres : (transcribe a env).1 = Except.ok (String.intercalate "\n\n"
      ((List.range segs.length).map (segmentEntry env))) := by
    rw [transcribe_planned_ok a env s segs hs hgt hp]
  rw [htr] at hcr
  have hnoseg : Event.createTemp p ∉ (transcribeSegments segs 0 env).2 := by
    intro hmem
    have hpm := (mem_createTempPaths _ p).mpr hmem
    rw [transcribeSegments_createTempPaths] at hpm
    simp at hpm
  have hplanmem : Event.createTemp p ∈ (planSegments a s env).2 := by
    rcases List.mem_append.mp hcr with h1 | h2
    · exact h1
    · exact absurd h2 hnoseg
  have hfile : Segment.file p ∈ segs := by
    by_cases hx : strToLower a.ext = "m4a"
    · have hp' := hp
      simp only [planSegments, hx, if_true] at hp'
      have hpm' := hplanmem
      simp only [planSegments, hx, if_true] at hpm'
      cases hq : (splitAudioByDuration a.durationMs (5 * 60 * 1000)
          env.exportOk).1 with
      | error e => rw [hq] at hp'; simp [Except.map] at hp'
      | ok ps =>
        rw [hq] at hp'
        simp [Except.map] at hp'
        have htr2 := splitAudioByDuration_ok a.durationMs (5 * 60 * 1000)
          env.exportOk ps hq
        rw [htr2] at hpm'
        rcases List.mem_map.mp hpm' with ⟨q, hqmem, hqe⟩
        have hqp : q = p := by
          injection hqe
        rw [← hp']
        exact List.mem_map.mpr ⟨p, hqp ▸ hqmem, rfl⟩
    · simp only [planSegments, hx, if_false] at hplanmem
      simp at hplanmem
  have hrem := transcribeSegments_remove segs 0 env p hfile
  refine ⟨fun hd => ?_, fun hd => ?_, hres⟩
  · rw [htr]
    exact List.mem_append.mpr (Or.inr (hrem.1 hd))
  · rw [htr]
    exact List.mem_append.mpr (Or.inr (hrem.2 hd))

/-- C5 (amended) witness: in the successful 3-segment m4a run, the first
temporary file's creation is followed by its successful removal, and the
result is the join of the 3 entries. -/
theorem c5_cleanup_amended_witness :
    Event.removeOk "tmp_0.mp4" ∈ (transcribe aBigM4a envAll).2 :=
  (c5_cleanup_amended aBigM4a envAll 41943040
    ((List.range 3).map (fun i => Segment.file (tmpPath i))) "tmp_0.mp4"
    rfl (by decide) rfl (by decide)).1 rfl
